import Mathlib

/-!
Shallow embedding of the lost-and-found registry core (item lifecycle,
handover protocol, session manager, user management) and proofs of the
specification claims about it.

Collections are modelled as Lean lists; the browser key-value store is
modelled by explicit state records threaded through the operations.
Timestamps are integers (milliseconds since epoch) where arithmetic is
performed on them, and opaque strings where the code only stores them.
-/

namespace LostFound

/-- Item status enumeration from the source types:
`active | stored | sold | handed_over`. -/
inductive Status where
  | active
  | stored
  | sold
  | handed_over
deriving DecidableEq, Repr

/-- The `FoundItem` record from the source types module.  Optional
descriptive fields are `Option String`. -/
structure FoundItem where
  id : String
  foundDate : String
  foundLocation : String
  finderName : String
  finderContact : String
  itemName : String
  description : String
  brand : Option String
  material : Option String
  shape : Option String
  color : Option String
  size : Option String
  imageUrl : Option String
  createdAt : String
  createdByUserId : String
  status : Status
deriving DecidableEq, Repr

/-- The recipient/custody data captured at handover step 3, as passed to
`handOverItem` / `handOverStoredItem` (`recipientData` parameter). -/
structure RecipientData where
  recipientName : String
  recipientAddress : String
  recipientEmail : Option String
  recipientPhone : Option String
  recipientIdDocType : Option String
  recipientIdDocNumber : Option String
deriving DecidableEq, Repr

/-- The `HandedOverItem` record: the item frozen at handover (its status
set to `handed_over`), extended with the custody fields.  The TS type
flattens these fields; we keep the underlying item as a component, which
carries the same information. -/
structure HandedOverItem where
  item : FoundItem
  handedOverAt : String
  handedOverByUserId : String
  recipient : RecipientData
deriving DecidableEq, Repr

/-- The two item collections of the persistence store:
`found_items` (active) and `handed_over_items` (archive). -/
structure StoreState where
  items : List FoundItem
  handedOver : List HandedOverItem
deriving DecidableEq, Repr

/-! ## Elapsed-days computation (storage helper `getDaysSinceFound`)

    const found = new Date(foundDate); const now = new Date();
    const diffTime = Math.abs(now.getTime() - found.getTime());
    return Math.ceil(diffTime / (1000 * 60 * 60 * 24));

`getTime` values are integer milliseconds; `Math.ceil` of the exact
rational quotient of the nonnegative integer `diffTime` by the day length
is the integer ceiling division `(a + b - 1) / b`. -/

def msPerDay : Nat := 1000 * 60 * 60 * 24

/-- Ceiling division `Math.ceil (a / b)` for natural `a` and positive natural `b`. -/
def ceilDivNat (a b : Nat) : Nat := (a + b - 1) / b

/-- Embedding of `getDaysSinceFound`, over integer millisecond timestamps.
`Math.abs` of the signed difference becomes `Int.natAbs`. -/
def getDaysSinceFound (foundMs nowMs : Int) : Nat :=
  ceilDivNat (nowMs - foundMs).natAbs msPerDay

/-- Modelled from the spec: "Elapsed days = ceiling of (now − foundDate)
in whole days", the *signed* ceiling (negative when foundDate is in the
future), written with floor division via the identity ⌈x⌉ = −⌊−x⌋. -/
def elapsedDaysSigned (foundMs nowMs : Int) : Int :=
  -(Int.fdiv (-(nowMs - foundMs)) (msPerDay : Int))

/-! ## Age gates (ItemListView)

    const daysSinceFound = getDaysSinceFound(item.foundDate);
    const canStore = daysSinceFound >= 100 && item.status === "active";
    const canSell = daysSinceFound >= 366 &&
        (item.status === "active" || item.status === "stored");
-/

def canStore (foundMs : Int) (status : Status) (nowMs : Int) : Bool :=
  decide (100 ≤ getDaysSinceFound foundMs nowMs) && decide (status = .active)

def canSell (foundMs : Int) (status : Status) (nowMs : Int) : Bool :=
  decide (366 ≤ getDaysSinceFound foundMs nowMs) &&
    (decide (status = .active) || decide (status = .stored))

/-! ## Session manager (AuthContext)

    const INACTIVITY_TIMEOUT = 2 * 60 * 1000;
`checkInactivity` runs only while a user is logged in (the effect is
guarded by `if (!user) return`); it reads the last-activity timestamp and
on `elapsed > INACTIVITY_TIMEOUT` calls `handleLogout`, which clears the
current user and removes the last-activity marker. -/

def INACTIVITY_TIMEOUT : Int := 2 * 60 * 1000

/-- The session state: the current-user slot and the last-activity slot. -/
structure AuthState where
  currentUser : Option String
  lastActivity : Option Int
deriving DecidableEq, Repr

/-- Embedding of `handleLogout`: clear the user and the activity marker. -/
def handleLogout (_st : AuthState) : AuthState :=
  { currentUser := none, lastActivity := none }

/-- Embedding of `checkInactivity`, at current time `now` (ms). -/
def checkInactivity (now : Int) (st : AuthState) : AuthState :=
  match st.currentUser with
  | none => st
  | some _ =>
    match st.lastActivity with
    | none => st
    | some t =>
      if INACTIVITY_TIMEOUT < now - t then handleLogout st else st

/-! ## Item store operations (storage module)

`localStorage` read-modify-write becomes pure list transformations.
The randomly generated fresh id (`generateItemId()`) and the wall-clock
timestamps (`new Date().toISOString()`) enter as explicit parameters. -/

/-- The argument of `saveFoundItem`:
`Omit` of FoundItem without id, createdAt, status, createdByUserId. -/
structure NewItemInput where
  foundDate : String
  foundLocation : String
  finderName : String
  finderContact : String
  itemName : String
  description : String
  brand : Option String
  material : Option String
  shape : Option String
  color : Option String
  size : Option String
  imageUrl : Option String
deriving DecidableEq, Repr

/-- Embedding of `saveFoundItem`: spreads the input, adds the generated id, `createdAt`,
the creating user, and `status := active`, and pushes onto the items list. -/
def saveFoundItem (input : NewItemInput) (freshId createdAt createdByUserId : String)
    (st : StoreState) : StoreState × FoundItem :=
  let newItem : FoundItem :=
    { id := freshId
      foundDate := input.foundDate
      foundLocation := input.foundLocation
      finderName := input.finderName
      finderContact := input.finderContact
      itemName := input.itemName
      description := input.description
      brand := input.brand
      material := input.material
      shape := input.shape
      color := input.color
      size := input.size
      imageUrl := input.imageUrl
      createdAt := createdAt
      createdByUserId := createdByUserId
      status := .active }
  ({ st with items := st.items ++ [newItem] }, newItem)

/-- A `findIndex` followed by in-place update of the first matching element:
the common shape of `updateItemStatus`, `restoreFromStorage` and
`updateUser`.  Returns the updated list and whether a match was found. -/
def updateFirst {α : Type} (p : α → Bool) (f : α → α) :
    List α → List α × Bool
  | [] => ([], false)
  | it :: rest =>
    if p it then (f it :: rest, true)
    else
      let r := updateFirst p f rest
      (it :: r.1, r.2)

/-- Embedding of `updateItemStatus`: sets the status of the first item with the given
id; no-op when the id is absent. -/
def updateItemStatus (id : String) (status : Status) (st : StoreState) : StoreState :=
  { st with items := (updateFirst (fun it => it.id == id) (fun it => { it with status := status }) st.items).1 }

/-- Embedding of `deleteItem`: `items.filter(item => item.id !== id)`. -/
def deleteItem (id : String) (st : StoreState) : StoreState :=
  { st with items := st.items.filter (fun it => !(it.id == id)) }

/-- Embedding of `restoreFromStorage`: finds the first item with the given id *and*
status `stored`, sets its status to `active`, returns `true`; returns
`false` (list untouched) when there is no such item. -/
def restoreFromStorage (id : String) (items : List FoundItem) : List FoundItem × Bool :=
  updateFirst (fun it => it.id == id && it.status == Status.stored)
    (fun it => { it with status := .active }) items

/-- Embedding of `restoreFromStorage` lifted to the store state. -/
def restoreFromStorageSt (id : String) (st : StoreState) : StoreState × Bool :=
  let r := restoreFromStorage id st.items
  ({ st with items := r.1 }, r.2)

/-- A `findIndex` followed by `splice(index, 1)`: removes the first element
satisfying `p`, returning the remaining list and the removed element. -/
def extractFirst (p : FoundItem → Bool) : List FoundItem → Option (List FoundItem × FoundItem)
  | [] => none
  | it :: rest =>
    if p it then some (rest, it)
    else
      match extractFirst p rest with
      | none => none
      | some (l, found) => some (it :: l, found)

/-- The archived record built by `handOverItem` / `handOverStoredItem`:
the spread of the item with status handed_over, handedOverAt,
handedOverByUserId, and the recipient data. -/
def mkHandedOver (it : FoundItem) (handedOverByUserId handedOverAt : String)
    (rd : RecipientData) : HandedOverItem :=
  { item := { it with status := .handed_over }
    handedOverAt := handedOverAt
    handedOverByUserId := handedOverByUserId
    recipient := rd }

/-- Embedding of `handOverItem`: looks the item up by id only (any status); on a hit,
removes it from the items list and appends the archived record to the
handed-over list; on a miss returns `null` with both lists untouched. -/
def handOverItem (itemId handedOverByUserId handedOverAt : String)
    (rd : RecipientData) (st : StoreState) : StoreState × Option HandedOverItem :=
  match extractFirst (fun it => it.id == itemId) st.items with
  | none => (st, none)
  | some (l, it) =>
    let rec_ := mkHandedOver it handedOverByUserId handedOverAt rd
    ({ items := l, handedOver := st.handedOver ++ [rec_] }, some rec_)

/-- Embedding of `handOverStoredItem`: identical to `handOverItem` except the lookup
requires the status `stored` as well. -/
def handOverStoredItem (itemId handedOverByUserId handedOverAt : String)
    (rd : RecipientData) (st : StoreState) : StoreState × Option HandedOverItem :=
  match extractFirst (fun it => it.id == itemId && it.status == Status.stored) st.items with
  | none => (st, none)
  | some (l, it) =>
    let rec_ := mkHandedOver it handedOverByUserId handedOverAt rd
    ({ items := l, handedOver := st.handedOver ++ [rec_] }, some rec_)

/-- The id multiset of both collections together.  The exclusivity
invariant is that this list has no duplicate. -/
def idsOf (st : StoreState) : List String :=
  st.items.map (fun it => it.id) ++ st.handedOver.map (fun h => h.item.id)

/-- Exclusivity: every item id occurs in exactly one of the two
collections (and only once there). -/
abbrev ExclusiveIds (st : StoreState) : Prop := (idsOf st).Nodup

/-! ## Handover dialog (HandoverDialog component)

Step-3 validation and submission, and the step-2 scan verification. -/

/-- JS `value.trim()`: strips leading and trailing whitespace. -/
def jsTrim (s : String) : String :=
  String.mk (((s.data.dropWhile Char.isWhitespace).reverse.dropWhile
    Char.isWhitespace).reverse)

/-- Splitting a character list on a separator character (the split used
when checking the email pattern for exactly one `@`). -/
def splitOnChar (sep : Char) : List Char → List (List Char)
  | [] => [[]]
  | c :: rest =>
    let r := splitOnChar sep rest
    if c == sep then [] :: r
    else
      match r with
      | [] => [[c]]
      | h :: t => (c :: h) :: t

/-- Embedding of the `validateEmail` regex `/^[^\s@]+@[^\s@]+\.[^\s@]+$/`: the string
decomposes as `a@b.c` with `a`, `b`, `c` nonempty runs of characters that
are neither whitespace nor `@` (`b` may itself contain further dots).
Equivalently: exactly one `@`, nonempty local part, no whitespace
anywhere, and a dot in the domain that is neither its first nor its last
character.  Empty input passes (optional field). -/
def validateEmail (email : String) : Bool :=
  if email == "" then true
  else
    match splitOnChar '@' email.data with
    | [a, b] =>
      !(a.isEmpty) && a.all (fun c => !c.isWhitespace) &&
        b.all (fun c => !c.isWhitespace) &&
        ((b.drop 1).dropLast.contains '.')
    | _ => false

/-- Embedding of the `validatePhone` regex `/^[\d\s\+\-\(\)]+$/`: nonempty and every
character a digit, whitespace, or one of `+ - ( )`.  Empty input passes
(optional field). -/
def validatePhone (phone : String) : Bool :=
  if phone == "" then true
  else phone.toList.all
    (fun c => c.isDigit || c.isWhitespace || c == '+' || c == '-' || c == '(' || c == ')')

/-- The six text fields of the step-3 recipient form (`formData`). -/
structure RecipientForm where
  recipientName : String
  recipientAddress : String
  recipientEmail : String
  recipientPhone : String
  recipientIdDocType : String
  recipientIdDocNumber : String
deriving DecidableEq, Repr

/-- The `recipientData` object built by `handleSubmit` on a valid form:
required fields trimmed, empty optional fields replaced by `undefined`. -/
def mkRecipientData (f : RecipientForm) : RecipientData :=
  { recipientName := jsTrim f.recipientName
    recipientAddress := jsTrim f.recipientAddress
    recipientEmail :=
      if jsTrim f.recipientEmail == "" then none else some (jsTrim f.recipientEmail)
    recipientPhone :=
      if jsTrim f.recipientPhone == "" then none else some (jsTrim f.recipientPhone)
    recipientIdDocType := some f.recipientIdDocType
    recipientIdDocNumber := some (jsTrim f.recipientIdDocNumber) }

/-- Embedding of `handleSubmit`: the guarded early returns of the dialog submit
handler, in source order, ending in the status-directed dispatch to
`handOverStoredItem` or `handOverItem`.  Every rejected branch returns
the store state unchanged (the toasts are pure UI). -/
def handleSubmit (isAuthenticated : Bool) (handoverUserId : Option String)
    (isScanned : Bool) (f : RecipientForm) (item : Option FoundItem)
    (now : String) (st : StoreState) : StoreState × Option HandedOverItem :=
  if !isAuthenticated || handoverUserId.isNone then (st, none)
  else if !isScanned then (st, none)
  else if jsTrim f.recipientName == "" then (st, none)
  else if jsTrim f.recipientAddress == "" then (st, none)
  else if f.recipientIdDocType == "" then (st, none)
  else if jsTrim f.recipientIdDocNumber == "" then (st, none)
  else if !(validateEmail f.recipientEmail) then (st, none)
  else if !(validatePhone f.recipientPhone) then (st, none)
  else
    match item, handoverUserId with
    | none, _ => (st, none)
    | _, none => (st, none)
    | some it, some uid =>
      let rd := mkRecipientData f
      if it.status == Status.stored then handOverStoredItem it.id uid now rd st
      else handOverItem it.id uid now rd st

/-- The dialog steps `auth | scan | form`. -/
inductive Step where
  | auth
  | scan
  | form
deriving DecidableEq, Repr

/-- The dialog state touched by the step-2 scan handlers. -/
structure ScanState where
  step : Step
  scannedId : String
  isScanned : Bool
deriving DecidableEq, Repr

/-- JS `value.toUpperCase()`: uppercases character by character (the ids
involved are ASCII hexadecimal). -/
def toUpperCase (s : String) : String := String.mk (s.data.map Char.toUpper)

/-- JS `value.toLowerCase()`. -/
def toLowerCase (s : String) : String := String.mk (s.data.map Char.toLower)

/-- Embedding of `verifyScannedId`: on an exact match, marks the id scanned and
advances to the form step; on a mismatch, clears the input buffer
(staying on the current step). -/
def verifyScannedId (itemId value : String) (st : ScanState) : ScanState :=
  if value == itemId then { st with isScanned := true, step := .form }
  else { st with scannedId := "" }

/-- Embedding of `handleScanInput`: uppercases the input, stores it in the buffer, and
auto-verifies the moment exactly 16 characters are present. -/
def handleScanInput (itemId input : String) (st : ScanState) : ScanState :=
  let value := toUpperCase input
  let st1 := { st with scannedId := value }
  if value.length == 16 then verifyScannedId itemId value st1 else st1

/-! ## User management (storage module and UserManagement component) -/

/-- Role enumeration `user | admin`. -/
inductive Role where
  | user
  | admin
deriving DecidableEq, Repr

/-- The `User` record (fields relevant to the user-management claims). -/
structure User where
  id : String
  email : String
  name : String
  password : String
  role : Role
  createdAt : String
  createdByUserId : Option String
deriving DecidableEq, Repr

/-- Embedding of `deleteUser` (storage): filters out the id, reports whether anything
was removed. -/
def deleteUser (userId : String) (users : List User) : List User × Bool :=
  let filtered := users.filter (fun u => !(u.id == userId))
  if filtered.length == users.length then (users, false) else (filtered, true)

/-- Embedding of `createUser` (storage): pushes the new record with a generated id,
`createdAt`, and the creating user. -/
def createUser (email name password : String) (role : Role)
    (freshId createdAt createdByUserId : String) (users : List User) : List User :=
  users ++ [{ id := freshId, email := email, name := name, password := password,
              role := role, createdAt := createdAt,
              createdByUserId := some createdByUserId }]

/-- Embedding of `confirmDelete` (UserManagement): refuses when the pending target id
equals the id of the current user, otherwise calls `deleteUser`. -/
def confirmDelete (deleteConfirm : Option String) (currentUser : Option User)
    (users : List User) : List User :=
  match deleteConfirm with
  | none => users
  | some target =>
    if (match currentUser with | some cu => target == cu.id | none => false) then users
    else (deleteUser target users).1

/-- Embedding of `handleRoleChange` (UserManagement): refuses when the target id equals
the id of the current user, otherwise applies `updateUser` with the new
role (first id match). -/
def handleRoleChange (userId : String) (newRole : Role) (currentUser : Option User)
    (users : List User) : List User :=
  if (match currentUser with | some cu => userId == cu.id | none => false) then users
  else (updateFirst (fun u => u.id == userId) (fun u => { u with role := newRole }) users).1

/-- Embedding of `handleAddUser` (UserManagement): rejects on any empty field, missing
session, or an existing user with the *exact same* email string
(`u.email === newUser.email`); otherwise calls `createUser`. -/
def handleAddUser (email name password : String) (role : Role)
    (currentUser : Option User) (freshId createdAt : String)
    (users : List User) : List User :=
  if email == "" || name == "" || password == "" then users
  else
    match currentUser with
    | none => users
    | some cu =>
      if users.any (fun u => u.email == email) then users
      else createUser email name password role freshId createdAt cu.id users

/-! ## Helper lemmas -/

/-- Lemma: `updateFirst` reports a hit exactly when some element matches. -/
theorem updateFirst_snd_true_iff {α : Type} (p : α → Bool) (f : α → α) (l : List α) :
    (updateFirst p f l).2 = true ↔ ∃ a ∈ l, p a = true := by
  induction l with
  | nil => simp [updateFirst]
  | cons b rest ih =>
    by_cases hb : p b = true
    · simp [updateFirst, hb]
    · have hstep : (updateFirst p f (b :: rest)).2 = (updateFirst p f rest).2 := by
        simp [updateFirst, hb]
      rw [hstep, ih]
      constructor
      · rintro ⟨a, ha, hpa⟩
        exact ⟨a, List.mem_cons_of_mem _ ha, hpa⟩
      · rintro ⟨a, ha, hpa⟩
        rcases List.mem_cons.mp ha with h1 | h2
        · rw [h1] at hpa; exact absurd hpa hb
        · exact ⟨a, h2, hpa⟩

/-- On a miss, `updateFirst` returns the list unchanged. -/
theorem updateFirst_fst_of_miss {α : Type} (p : α → Bool) (f : α → α) (l : List α)
    (h : (updateFirst p f l).2 = false) : (updateFirst p f l).1 = l := by
  induction l with
  | nil => simp [updateFirst]
  | cons b rest ih =>
    by_cases hb : p b = true
    · simp [updateFirst, hb] at h
    · simp only [updateFirst, hb, if_neg, Bool.false_eq_true, if_false]
      simp only [updateFirst, hb, Bool.false_eq_true, if_false] at h
      simp [ih h]

/-- Evaluating `updateFirst` at an explicit first-match decomposition. -/
theorem updateFirst_decomp {α : Type} (p : α → Bool) (f : α → α)
    (pre post : List α) (a : α)
    (hpre : ∀ x ∈ pre, p x = false) (ha : p a = true) :
    updateFirst p f (pre ++ a :: post) = (pre ++ f a :: post, true) := by
  induction pre with
  | nil => simp [updateFirst, ha]
  | cons b rest ih =>
    have hb : p b = false := hpre b (by simp)
    have ih2 := ih (fun x hx => hpre x (by simp [hx]))
    simp [updateFirst, hb, ih2]

/-- Lemma: `updateFirst` leaves any projection untouched on which the update has
no effect. -/
theorem updateFirst_map_invariant {α β : Type} (p : α → Bool) (f : α → α) (g : α → β)
    (hg : ∀ a, g (f a) = g a) (l : List α) :
    (updateFirst p f l).1.map g = l.map g := by
  induction l with
  | nil => simp [updateFirst]
  | cons b rest ih =>
    by_cases hb : p b = true
    · simp [updateFirst, hb, hg]
    · simp [updateFirst, hb, ih]

/-- Lemma: `extractFirst` misses exactly when no element matches. -/
theorem extractFirst_eq_none_iff (p : FoundItem → Bool) (l : List FoundItem) :
    extractFirst p l = none ↔ ∀ a ∈ l, p a = false := by
  induction l with
  | nil => simp [extractFirst]
  | cons b rest ih =>
    by_cases hb : p b = true
    · simp [extractFirst, hb]
    · have hb2 : p b = false := by
        revert hb; cases p b <;> simp
      cases hrest : extractFirst p rest with
      | none =>
        have hstep : extractFirst p (b :: rest) = none := by
          simp [extractFirst, hb, hrest]
        rw [hstep]
        constructor
        · intro _ a ha
          rcases List.mem_cons.mp ha with h1 | h2
          · rw [h1]; exact hb2
          · exact (ih.mp hrest) a h2
        · intro _; rfl
      | some r =>
        obtain ⟨l2, a2⟩ := r
        have hstep : extractFirst p (b :: rest) = some (b :: l2, a2) := by
          simp [extractFirst, hb, hrest]
        rw [hstep]
        constructor
        · intro h; cases h
        · intro h
          exfalso
          have hnone : extractFirst p rest = none :=
            ih.mpr (fun a ha => h a (List.mem_cons_of_mem _ ha))
          rw [hrest] at hnone
          cases hnone

/-- Evaluating `extractFirst` at an explicit first-match decomposition. -/
theorem extractFirst_decomp (p : FoundItem → Bool)
    (pre post : List FoundItem) (a : FoundItem)
    (hpre : ∀ x ∈ pre, p x = false) (ha : p a = true) :
    extractFirst p (pre ++ a :: post) = some (pre ++ post, a) := by
  induction pre with
  | nil => simp [extractFirst, ha]
  | cons b rest ih =>
    have hb : p b = false := hpre b (by simp)
    have ih2 := ih (fun x hx => hpre x (by simp [hx]))
    simp [extractFirst, hb, ih2]

/-- Lemma: `extractFirst` returns a permutation-decomposition of its input. -/
theorem extractFirst_perm (p : FoundItem → Bool) (l l2 : List FoundItem) (a : FoundItem)
    (h : extractFirst p l = some (l2, a)) : l.Perm (a :: l2) := by
  induction l generalizing l2 with
  | nil => simp [extractFirst] at h
  | cons b rest ih =>
    by_cases hb : p b = true
    · simp only [extractFirst, hb, if_true, Option.some.injEq, Prod.mk.injEq] at h
      rw [← h.1, ← h.2]
    · simp only [extractFirst, hb, Bool.false_eq_true, if_false] at h
      cases hrest : extractFirst p rest with
      | none => rw [hrest] at h; cases h
      | some r =>
        obtain ⟨l3, a3⟩ := r
        rw [hrest] at h
        simp only [Option.some.injEq, Prod.mk.injEq] at h
        obtain ⟨h1, h2⟩ := h
        subst h1
        subst h2
        have hperm := ih l3 hrest
        exact (hperm.cons b).trans (List.Perm.swap a3 b l3)

/-! ## Claim theorems -/

/-- C6: a user-delete request targeting the id of the acting user, and a
role-change request targeting that same id, are both rejected
with the Users collection unchanged, for every acting user and every
Users collection (hence regardless of how many other admins exist). -/
theorem self_protection (u : User) (r : Role) (users : List User) :
    confirmDelete (some u.id) (some u) users = users ∧
    handleRoleChange u.id r (some u) users = users := by
  constructor
  · simp [confirmDelete]
  · simp [handleRoleChange]

/-- C7: for a logged-in session with last activity at `T`, the inactivity
check at `T + 121` seconds (idle window 120 seconds) forces logout,
clearing both the current identity and the activity marker, while the
check at `T + 90` seconds leaves the session unchanged. -/
theorem idle_expiry (u : String) (T : Int) :
    checkInactivity (T + 121 * 1000) ⟨some u, some T⟩ =
      ⟨none, none⟩ ∧
    checkInactivity (T + 90 * 1000) ⟨some u, some T⟩ =
      ⟨some u, some T⟩ := by
  constructor
  · show (if INACTIVITY_TIMEOUT < (T + 121 * 1000) - T then _ else _) = _
    rw [if_pos (by unfold INACTIVITY_TIMEOUT; omega)]
    rfl
  · show (if INACTIVITY_TIMEOUT < (T + 90 * 1000) - T then _ else _) = _
    rw [if_neg (by unfold INACTIVITY_TIMEOUT; omega)]

/-- C5: in handover step 2 the input is normalized to uppercase and
verification succeeds exactly on character-for-character equality with
the 16-character item id: on a match the dialog records the scan and
advances to the form step; on a full-length mismatch the buffer is
cleared and the step is unchanged (step 2), and any number of mismatched
attempts leaves the step and scan flag unchanged, so a later correct
input still succeeds (no retry limit). -/
theorem scan_verification (itemId input : String) (st : ScanState)
    (hlen : itemId.length = 16) :
    (toUpperCase input = itemId →
      handleScanInput itemId input st =
        { st with scannedId := itemId, isScanned := true, step := .form }) ∧
    ((toUpperCase input).length = 16 → toUpperCase input ≠ itemId →
      handleScanInput itemId input st = { st with scannedId := "" }) ∧
    (∀ bads : List String,
      (∀ b ∈ bads, (toUpperCase b).length = 16 ∧ toUpperCase b ≠ itemId) →
      (bads.foldl (fun s b => handleScanInput itemId b s) st).step = st.step ∧
      (bads.foldl (fun s b => handleScanInput itemId b s) st).isScanned = st.isScanned) := by
  refine ⟨?_, ?_, ?_⟩
  · intro hmatch
    simp [handleScanInput, verifyScannedId, hmatch, hlen]
  · intro hl16 hne
    simp [handleScanInput, verifyScannedId, hl16, hne]
  · intro bads hbads
    induction bads generalizing st with
    | nil => exact ⟨rfl, rfl⟩
    | cons b rest ih =>
      have hb := hbads b (List.mem_cons_self _ _)
      have hstep : handleScanInput itemId b st = { st with scannedId := "" } := by
        simp [handleScanInput, verifyScannedId, hb.1, hb.2]
      have ih2 := ih ({ st with scannedId := "" })
        (fun x hx => hbads x (List.mem_cons_of_mem _ hx))
      simp only [List.foldl_cons, hstep]
      exact ih2

/-- C5 witness: the lowercase scan input normalizes to uppercase and
matches the item id `A1B2C3D4E5F6A7B8`, advancing the dialog to the form
step with the scan recorded. -/
theorem scan_verification_witness :
    handleScanInput "A1B2C3D4E5F6A7B8" "a1b2c3d4e5f6a7b8" ⟨.scan, "", false⟩ =
      ⟨.form, "A1B2C3D4E5F6A7B8", true⟩ :=
  (scan_verification "A1B2C3D4E5F6A7B8" "a1b2c3d4e5f6a7b8" ⟨.scan, "", false⟩
    (by decide)).1 (by decide)

/-- Monotonicity of the elapsed-days value in "now", valid once the found
date is not in the future. -/
theorem getDaysSinceFound_mono (foundMs n1 n2 : Int)
    (h0 : foundMs ≤ n1) (h1 : n1 ≤ n2) :
    getDaysSinceFound foundMs n1 ≤ getDaysSinceFound foundMs n2 := by
  unfold getDaysSinceFound ceilDivNat
  apply Nat.div_le_div_right
  omega

/-- C4 counterexample: for a foundDate one day in the future
(foundDate = epoch + 1 day, now = epoch) the computed elapsed-days value is
`1` — strictly positive — whereas the claim requires it to be negative or
zero (the signed ceiling, also computed here, is `-1`). -/
theorem elapsed_days_future_counterexample :
    getDaysSinceFound 86400000 0 = 1 ∧
    elapsedDaysSigned 86400000 0 = -1 ∧
    ¬((getDaysSinceFound 86400000 0 : Int) ≤ 0) := by decide

/-- C4 amended: the elapsed-days value consulted by the age gates equals
the ceiling of the *absolute* difference |now − foundDate| in whole days
(characterized by its Galois connection: it is at most `k` exactly when
the millisecond distance is at most `k` days), and is therefore symmetric
in the two instants — strictly positive, not negative or zero, when
foundDate is in the future.  It is a function of foundDate and "now"
alone, recomputed per query (the item record carries no such field). -/
theorem elapsed_days_amended (foundMs nowMs : Int) (k : Nat) :
    (getDaysSinceFound foundMs nowMs ≤ k ↔
      (nowMs - foundMs).natAbs ≤ k * msPerDay) ∧
    getDaysSinceFound foundMs nowMs = getDaysSinceFound nowMs foundMs := by
  constructor
  · unfold getDaysSinceFound ceilDivNat msPerDay
    rw [Nat.div_le_iff_le_mul_add_pred (by norm_num)]
    omega
  · unfold getDaysSinceFound
    congr 1
    omega

/-- C3 counterexample: an item whose foundDate lies in the future (which
item registration permits — the date is only format-checked) breaks
monotonicity: with foundDate 200 days after the epoch and status
`active`, `canStore` is true at now = epoch but false at
now = foundDate, although epoch ≤ foundDate; likewise `canSell` with a
foundDate 400 days ahead. -/
theorem age_gate_monotonicity_counterexample :
    ((0 : Int) ≤ 200 * 86400000) ∧
    canStore (200 * 86400000) .active 0 = true ∧
    canStore (200 * 86400000) .active (200 * 86400000) = false ∧
    ((0 : Int) ≤ 400 * 86400000) ∧
    canSell (400 * 86400000) .active 0 = true ∧
    canSell (400 * 86400000) .active (400 * 86400000) = false := by decide

/-- C3 amended: restricted to query instants not before the recorded
foundDate (the intended situation — found dates in the past), `canStore`
and `canSell` are monotone non-decreasing in "now" holding the item
fixed, and they hold exactly when the elapsed-days value reaches the
100-day, resp. 366-day, threshold with the status gate satisfied. -/
theorem age_gate_monotone_amended (foundMs n1 n2 : Int) (s : Status)
    (h0 : foundMs ≤ n1) (h1 : n1 ≤ n2) :
    (canStore foundMs s n1 = true → canStore foundMs s n2 = true) ∧
    (canSell foundMs s n1 = true → canSell foundMs s n2 = true) ∧
    (canStore foundMs s n1 = true ↔
      (100 ≤ getDaysSinceFound foundMs n1 ∧ s = .active)) ∧
    (canSell foundMs s n1 = true ↔
      (366 ≤ getDaysSinceFound foundMs n1 ∧ (s = .active ∨ s = .stored))) := by
  have hmono := getDaysSinceFound_mono foundMs n1 n2 h0 h1
  refine ⟨?_, ?_, ?_, ?_⟩
  · simp only [canStore, Bool.and_eq_true, decide_eq_true_eq]
    intro h
    exact ⟨le_trans h.1 hmono, h.2⟩
  · simp only [canSell, Bool.and_eq_true, Bool.or_eq_true, decide_eq_true_eq]
    intro h
    exact ⟨le_trans h.1 hmono, h.2⟩
  · simp [canStore]
  · simp [canSell]

/-- C3 amended witness: with foundDate at the epoch, `canStore` holds at
100 days and therefore still holds at 200 days. -/
theorem age_gate_monotone_amended_witness :
    canStore 0 Status.active (200 * 86400000) = true :=
  (age_gate_monotone_amended 0 (100 * 86400000) (200 * 86400000) Status.active
    (by decide) (by decide)).1 (by decide)

/-! ## Concrete sample data for witnesses -/

/-- A stored item, used to instantiate universally quantified theorems. -/
def storedItem : FoundItem :=
  { id := "A1B2C3D4E5F6A7B8", foundDate := "2024-01-01", foundLocation := "Lobby",
    finderName := "Nagy Pál", finderContact := "contact", itemName := "Esernyő",
    description := "fekete", brand := none, material := none, shape := none,
    color := none, size := none, imageUrl := none, createdAt := "2024-01-01",
    createdByUserId := "1", status := .stored }

/-- A sold item: terminal for the Active collection, yet still accepted
by `handOverItem`. -/
def soldItem : FoundItem :=
  { storedItem with id := "00000000AAAAAAAA", status := .sold }

/-- Sample recipient data for witnesses. -/
def rdSample : RecipientData :=
  { recipientName := "Kiss Anna", recipientAddress := "Budapest, Fő u. 1.",
    recipientEmail := none, recipientPhone := none,
    recipientIdDocType := some "személyi igazolvány",
    recipientIdDocNumber := some "123456AB" }

/-- C10: `restoreFromStorage` reports success exactly when the items list
holds an item with the given id and status `stored`; on failure the list
is returned unchanged; on success, locating the first such item, only
the status field of that item changes (to `active`) — every other field of it
and every other item are untouched. -/
theorem restore_from_storage_spec (id : String) (items : List FoundItem) :
    ((restoreFromStorage id items).2 = true ↔
      ∃ it ∈ items, it.id = id ∧ it.status = Status.stored) ∧
    ((restoreFromStorage id items).2 = false →
      (restoreFromStorage id items).1 = items) ∧
    (∀ pre it post, items = pre ++ it :: post →
      (∀ x ∈ pre, ¬(x.id = id ∧ x.status = Status.stored)) →
      it.id = id → it.status = Status.stored →
      restoreFromStorage id items =
        (pre ++ { it with status := Status.active } :: post, true)) := by
  refine ⟨?_, ?_, ?_⟩
  · rw [restoreFromStorage, updateFirst_snd_true_iff]
    constructor
    · rintro ⟨a, ha, hpa⟩
      simp only [Bool.and_eq_true, beq_iff_eq] at hpa
      exact ⟨a, ha, hpa⟩
    · rintro ⟨a, ha, h1, h2⟩
      exact ⟨a, ha, by simp [h1, h2]⟩
  · intro hmiss
    exact updateFirst_fst_of_miss _ _ _ hmiss
  · intro pre it post hitems hpre hid hstat
    rw [restoreFromStorage, hitems]
    apply updateFirst_decomp
    · intro x hx
      have := hpre x hx
      by_cases h1 : x.id = id
      · have h2 : x.status ≠ Status.stored := fun hc => this ⟨h1, hc⟩
        simp [h2]
      · simp [h1]
    · simp [hid, hstat]

/-- C10 witness: restoring the sample stored item by its id flips exactly
its status to `active` and reports success. -/
theorem restore_from_storage_spec_witness :
    restoreFromStorage "A1B2C3D4E5F6A7B8" [storedItem] =
      ([{ storedItem with status := Status.active }], true) :=
  (restore_from_storage_spec "A1B2C3D4E5F6A7B8" [storedItem]).2.2 [] storedItem []
    rfl (by simp) rfl rfl

/-- C9: `handOverItem` looks its target up by id only, so it succeeds for
any present item whatever its status (including terminal `sold`): taking
the first occurrence of the id, the item is removed from the items list
and the archived record — the item with status `handed_over` plus the
custody fields — is appended to the handed-over list.  The restriction to
`stored` items lives only in `handOverStoredItem`, which returns `null`
untouched whenever no item with the id has status `stored`; and for an id
absent from the items list both functions return `null` with neither
collection mutated. -/
theorem handover_any_status (st : StoreState) (id uid now : String) (rd : RecipientData) :
    ((∀ x ∈ st.items, x.id ≠ id) →
      handOverItem id uid now rd st = (st, none) ∧
      handOverStoredItem id uid now rd st = (st, none)) ∧
    (∀ pre it post, st.items = pre ++ it :: post → it.id = id →
      (∀ x ∈ pre, x.id ≠ id) →
      handOverItem id uid now rd st =
        ({ items := pre ++ post,
           handedOver := st.handedOver ++ [mkHandedOver it uid now rd] },
         some (mkHandedOver it uid now rd)) ∧
      (mkHandedOver it uid now rd).item.status = Status.handed_over) ∧
    ((∀ x ∈ st.items, x.id = id → x.status ≠ Status.stored) →
      handOverStoredItem id uid now rd st = (st, none)) := by
  refine ⟨?_, ?_, ?_⟩
  · intro habs
    have h1 : extractFirst (fun it => it.id == id) st.items = none := by
      rw [extractFirst_eq_none_iff]
      intro a ha
      simp [habs a ha]
    have h2 : extractFirst (fun it => it.id == id && it.status == Status.stored)
        st.items = none := by
      rw [extractFirst_eq_none_iff]
      intro a ha
      simp [habs a ha]
    constructor
    · simp [handOverItem, h1]
    · simp [handOverStoredItem, h2]
  · intro pre it post hitems hid hpre
    have hx : extractFirst (fun x => x.id == id) st.items = some (pre ++ post, it) := by
      rw [hitems]
      apply extractFirst_decomp
      · intro x hxp
        simp [hpre x hxp]
      · simp [hid]
    constructor
    · simp [handOverItem, hx]
    · rfl
  · intro hnostored
    have h2 : extractFirst (fun it => it.id == id && it.status == Status.stored)
        st.items = none := by
      rw [extractFirst_eq_none_iff]
      intro a ha
      by_cases haid : a.id = id
      · simp [hnostored a ha haid]
      · simp [haid]
    simp [handOverStoredItem, h2]

/-- C9 witness: a `sold` item is accepted by `handOverItem` (removed and
archived), while `handOverStoredItem` refuses the same item. -/
theorem handover_any_status_witness :
    handOverItem "00000000AAAAAAAA" "2" "2024-06-01" rdSample ⟨[soldItem], []⟩ =
      (⟨[], [mkHandedOver soldItem "2" "2024-06-01" rdSample]⟩,
        some (mkHandedOver soldItem "2" "2024-06-01" rdSample)) ∧
    handOverStoredItem "00000000AAAAAAAA" "2" "2024-06-01" rdSample ⟨[soldItem], []⟩ =
      (⟨[soldItem], []⟩, none) :=
  ⟨((handover_any_status ⟨[soldItem], []⟩ "00000000AAAAAAAA" "2" "2024-06-01"
      rdSample).2.1 [] soldItem [] rfl rfl (by simp)).1,
   (handover_any_status ⟨[soldItem], []⟩ "00000000AAAAAAAA" "2" "2024-06-01"
      rdSample).2.2 (by decide)⟩

/-- A handover that extracted item `a` rearranges the combined id
multiset without changing it, so exclusivity survives. -/
theorem exclusive_after_extract (st : StoreState) (h : ExclusiveIds st)
    (p : FoundItem → Bool) (l2 : List FoundItem) (a : FoundItem)
    (hx : extractFirst p st.items = some (l2, a)) (uid now : String)
    (rd : RecipientData) :
    ExclusiveIds ⟨l2, st.handedOver ++ [mkHandedOver a uid now rd]⟩ := by
  have hperm : st.items.Perm (a :: l2) := extractFirst_perm p st.items l2 a hx
  have hids : (idsOf ⟨l2, st.handedOver ++ [mkHandedOver a uid now rd]⟩).Perm
      (idsOf st) := by
    simp only [idsOf, List.map_append, List.map_cons, List.map_nil]
    have step1 :
        l2.map (fun it => it.id) ++
            (st.handedOver.map (fun x => x.item.id) ++ [a.id]) |>.Perm
          (l2.map (fun it => it.id) ++
            (a.id :: st.handedOver.map (fun x => x.item.id))) :=
      List.Perm.append_left _ (List.perm_append_singleton _ _)
    have step2 :
        l2.map (fun it => it.id) ++
            (a.id :: st.handedOver.map (fun x => x.item.id)) |>.Perm
          (a.id :: (l2.map (fun it => it.id) ++
            st.handedOver.map (fun x => x.item.id))) :=
      List.perm_middle
    have step3 :
        st.items.map (fun it => it.id) |>.Perm (a.id :: l2.map (fun it => it.id)) :=
      hperm.map _
    have step4 :
        st.items.map (fun it => it.id) ++
            st.handedOver.map (fun x => x.item.id) |>.Perm
          (a.id :: (l2.map (fun it => it.id) ++
            st.handedOver.map (fun x => x.item.id))) :=
      step3.append_right _
    exact (step1.trans step2).trans step4.symm
  exact (hids.nodup_iff).mpr h

/-- C2: starting from a state satisfying exclusivity (each item id is in
exactly one of the two collections, and only once), every store
operation preserves it; for `saveFoundItem` the generated id is modelled
as an arbitrary input assumed fresh, matching the treatment in the spec of
generated ids as unique. -/
theorem exclusivity_preserved (st : StoreState) (h : ExclusiveIds st) :
    (∀ (input : NewItemInput) (freshId createdAt uid : String),
      freshId ∉ idsOf st →
      ExclusiveIds (saveFoundItem input freshId createdAt uid st).1) ∧
    (∀ id status, ExclusiveIds (updateItemStatus id status st)) ∧
    (∀ id, ExclusiveIds (deleteItem id st)) ∧
    (∀ id, ExclusiveIds (restoreFromStorageSt id st).1) ∧
    (∀ id uid now rd, ExclusiveIds (handOverItem id uid now rd st).1) ∧
    (∀ id uid now rd, ExclusiveIds (handOverStoredItem id uid now rd st).1) := by
  refine ⟨?_, ?_, ?_, ?_, ?_, ?_⟩
  · intro input freshId createdAt uid hfresh
    have hperm : (idsOf (saveFoundItem input freshId createdAt uid st).1).Perm
        (freshId :: idsOf st) := by
      simp only [saveFoundItem, idsOf, List.map_append, List.map_cons, List.map_nil]
      exact (List.perm_append_singleton _ _).append_right _
    exact (hperm.nodup_iff).mpr (List.nodup_cons.mpr ⟨hfresh, h⟩)
  · intro id status
    have h2 := updateFirst_map_invariant (fun it => it.id == id)
      (fun it => { it with status := status }) (fun it => it.id)
      (fun a => rfl) st.items
    show ((updateItemStatus id status st).items.map (fun it => it.id) ++ _).Nodup
    simp only [updateItemStatus, h2]
    exact h
  · intro id
    have hsub : (idsOf (deleteItem id st)).Sublist (idsOf st) := by
      simp only [deleteItem, idsOf]
      exact ((List.filter_sublist _).map _).append (List.Sublist.refl _)
    exact h.sublist hsub
  · intro id
    have h2 := updateFirst_map_invariant
      (fun it => it.id == id && it.status == Status.stored)
      (fun it => { it with status := Status.active }) (fun it => it.id)
      (fun a => rfl) st.items
    show (((restoreFromStorageSt id st).1).items.map (fun it => it.id) ++ _).Nodup
    simp only [restoreFromStorageSt, restoreFromStorage, h2]
    exact h
  · intro id uid now rd
    cases hx : extractFirst (fun it => it.id == id) st.items with
    | none =>
      simp only [handOverItem, hx]
      exact h
    | some r =>
      obtain ⟨l2, a⟩ := r
      have hgoal := exclusive_after_extract st h _ l2 a hx uid now rd
      simp only [handOverItem, hx]
      exact hgoal
  · intro id uid now rd
    cases hx : extractFirst (fun it => it.id == id && it.status == Status.stored)
        st.items with
    | none =>
      simp only [handOverStoredItem, hx]
      exact h
    | some r =>
      obtain ⟨l2, a⟩ := r
      have hgoal := exclusive_after_extract st h _ l2 a hx uid now rd
      simp only [handOverStoredItem, hx]
      exact hgoal

/-- Fresh registration input for the C2 witness. -/
def sampleInput : NewItemInput :=
  { foundDate := "2024-01-02", foundLocation := "Hall", finderName := "Szabó Éva",
    finderContact := "c", itemName := "Kulcs", description := "",
    brand := none, material := none, shape := none, color := none,
    size := none, imageUrl := none }

/-- C2 witness: saving a fresh item into an exclusive one-item store
keeps the store exclusive. -/
theorem exclusivity_preserved_witness :
    ExclusiveIds (saveFoundItem sampleInput "1234567812345678" "2024-01-02" "1"
      ⟨[storedItem], []⟩).1 :=
  (exclusivity_preserved ⟨[storedItem], []⟩ (by decide)).1 sampleInput
    "1234567812345678" "2024-01-02" "1" (by decide)

/-- At step 3 (authenticated, actor recorded, tag scanned, item present),
`handleSubmit` reduces to: validate the six form checks, and on success
dispatch on the item status to the matching store function. -/
theorem handleSubmit_step3_eq (uid : String) (f : RecipientForm) (it : FoundItem)
    (now : String) (st : StoreState) :
    handleSubmit true (some uid) true f (some it) now st =
      if !(jsTrim f.recipientName == "") && !(jsTrim f.recipientAddress == "") &&
          !(f.recipientIdDocType == "") && !(jsTrim f.recipientIdDocNumber == "") &&
          validateEmail f.recipientEmail && validatePhone f.recipientPhone then
        (if it.status == Status.stored then
          handOverStoredItem it.id uid now (mkRecipientData f) st
        else handOverItem it.id uid now (mkRecipientData f) st)
      else (st, none) := by
  by_cases h1 : jsTrim f.recipientName == ""
  · simp [handleSubmit, h1]
  · by_cases h2 : jsTrim f.recipientAddress == ""
    · simp [handleSubmit, h1, h2]
    · by_cases h3 : f.recipientIdDocType == ""
      · simp [handleSubmit, h1, h2, h3]
      · by_cases h4 : jsTrim f.recipientIdDocNumber == ""
        · simp [handleSubmit, h1, h2, h3, h4]
        · by_cases h5 : validateEmail f.recipientEmail
          · by_cases h6 : validatePhone f.recipientPhone
            · simp [handleSubmit, h1, h2, h3, h4, h5, h6]
            · simp [handleSubmit, h1, h2, h3, h4, h5, h6]
          · simp [handleSubmit, h1, h2, h3, h4, h5]

/-- C1: in a handover invocation at step 3 (credential check passed with
actor `uid`, tag scanned, target item present), a missing required
recipient field or a failing format check on a non-empty optional field
rejects the submission with both collections exactly as before; when all
checks pass and the target item is the first occurrence of its id in the
active list, the same operation removes it from the active collection and
appends to the archive a record equal to the item extended with the
recipient/custody fields, the handover timestamp, and the step-1 actor
id. -/
theorem handover_atomicity (uid : String) (f : RecipientForm) (it : FoundItem)
    (now : String) (st : StoreState) :
    ((jsTrim f.recipientName = "" ∨ jsTrim f.recipientAddress = "" ∨
      f.recipientIdDocType = "" ∨ jsTrim f.recipientIdDocNumber = "" ∨
      validateEmail f.recipientEmail = false ∨
      validatePhone f.recipientPhone = false) →
      handleSubmit true (some uid) true f (some it) now st = (st, none)) ∧
    (jsTrim f.recipientName ≠ "" → jsTrim f.recipientAddress ≠ "" →
      f.recipientIdDocType ≠ "" → jsTrim f.recipientIdDocNumber ≠ "" →
      validateEmail f.recipientEmail = true → validatePhone f.recipientPhone = true →
      ∀ pre post, st.items = pre ++ it :: post → (∀ x ∈ pre, x.id ≠ it.id) →
        handleSubmit true (some uid) true f (some it) now st =
          ({ items := pre ++ post,
             handedOver := st.handedOver ++
               [mkHandedOver it uid now (mkRecipientData f)] },
           some (mkHandedOver it uid now (mkRecipientData f)))) := by
  constructor
  · intro hfail
    rw [handleSubmit_step3_eq]
    have hcond : (!(jsTrim f.recipientName == "") && !(jsTrim f.recipientAddress == "") &&
        !(f.recipientIdDocType == "") && !(jsTrim f.recipientIdDocNumber == "") &&
        validateEmail f.recipientEmail && validatePhone f.recipientPhone) = false := by
      rcases hfail with hc | hc | hc | hc | hc | hc <;> simp [hc]
    rw [hcond]
    rfl
  · intro hn ha hd hdn he hp pre post hitems hpre
    rw [handleSubmit_step3_eq]
    have hcond : (!(jsTrim f.recipientName == "") && !(jsTrim f.recipientAddress == "") &&
        !(f.recipientIdDocType == "") && !(jsTrim f.recipientIdDocNumber == "") &&
        validateEmail f.recipientEmail && validatePhone f.recipientPhone) = true := by
      simp [hn, ha, hd, hdn, he, hp]
    rw [hcond, if_pos rfl]
    by_cases hs : it.status == Status.stored
    · rw [if_pos hs]
      have hx : extractFirst (fun x => x.id == it.id && x.status == Status.stored)
          st.items = some (pre ++ post, it) := by
        rw [hitems]
        apply extractFirst_decomp
        · intro x hxp
          simp [hpre x hxp]
        · simp only [beq_iff_eq] at hs
          simp [hs]
      simp [handOverStoredItem, hx]
    · rw [if_neg hs]
      have hx : extractFirst (fun x => x.id == it.id) st.items =
          some (pre ++ post, it) := by
        rw [hitems]
        apply extractFirst_decomp
        · intro x hxp
          simp [hpre x hxp]
        · simp
      simp [handOverItem, hx]

/-- A fully valid recipient form for the C1 witness (required fields
non-blank, optional email/phone supplied in valid formats). -/
def sampleForm : RecipientForm :=
  { recipientName := " Kiss Anna ", recipientAddress := "Budapest, Fő u. 1.",
    recipientEmail := "anna@example.hu", recipientPhone := "+36 30 123 4567",
    recipientIdDocType := "személyi igazolvány", recipientIdDocNumber := "123456AB" }

/-- C1 witness: submitting the valid sample form at step 3 over a
one-item store moves the stored sample item into the archive, extended
with the trimmed recipient data, timestamp and actor id. -/
theorem handover_atomicity_witness :
    handleSubmit true (some "2") true sampleForm (some storedItem) "2024-06-01"
        ⟨[storedItem], []⟩ =
      (⟨[], [mkHandedOver storedItem "2" "2024-06-01" (mkRecipientData sampleForm)]⟩,
        some (mkHandedOver storedItem "2" "2024-06-01" (mkRecipientData sampleForm))) :=
  (handover_atomicity "2" sampleForm storedItem "2024-06-01" ⟨[storedItem], []⟩).2
    (by decide) (by decide) (by decide) (by decide) (by decide) (by decide)
    [] [] rfl (by simp)

/-- The seeded admin account from `initializeDefaultUsers`. -/
def adminUser : User :=
  { id := "1", email := "admin@example.com", name := "Adminisztrátor",
    password := "admin123", role := .admin, createdAt := "t0",
    createdByUserId := none }

/-- A user whose email differs from the seeded admin email only in letter
case. -/
def dupCaseUser : User :=
  { id := "99", email := "Admin@example.com", name := "X", password := "pw",
    role := .user, createdAt := "t1", createdByUserId := some "1" }

/-- C8 counterexample: creating a user with email `Admin@example.com`
while `admin@example.com` is registered is NOT rejected — the duplicate
check compares emails with `===`, case-sensitively — so the Users
collection changes and ends up holding two emails that are equal up to
letter case. -/
theorem email_uniqueness_counterexample :
    handleAddUser "Admin@example.com" "X" "pw" Role.user (some adminUser)
        "99" "t1" [adminUser] = [adminUser, dupCaseUser] ∧
    toLowerCase dupCaseUser.email = toLowerCase adminUser.email ∧
    handleAddUser "Admin@example.com" "X" "pw" Role.user (some adminUser)
        "99" "t1" [adminUser] ≠ [adminUser] := by decide

/-- C8 amended: user creation is rejected with the Users collection
unchanged exactly when the email of an existing user is *character-for-
character* equal to the new email (case-sensitive comparison), and the
operation preserves case-sensitive uniqueness of emails; uniqueness up to
letter case is not enforced. -/
theorem email_uniqueness_amended (email name password : String) (role : Role)
    (cu : User) (freshId createdAt : String) (users : List User) :
    ((∃ u ∈ users, u.email = email) →
      handleAddUser email name password role (some cu) freshId createdAt users =
        users) ∧
    ((users.map (fun u => u.email)).Nodup →
      ((handleAddUser email name password role (some cu) freshId createdAt
        users).map (fun u => u.email)).Nodup) := by
  constructor
  · rintro ⟨u, hu, heq⟩
    unfold handleAddUser
    by_cases h0 : (email == "" || name == "" || password == "") = true
    · rw [if_pos h0]
    · rw [if_neg h0]
      have hany : users.any (fun u => u.email == email) = true := by
        rw [List.any_eq_true]
        exact ⟨u, hu, by simp [heq]⟩
      simp [hany]
  · intro hnodup
    unfold handleAddUser
    by_cases h0 : (email == "" || name == "" || password == "") = true
    · rw [if_pos h0]; exact hnodup
    · rw [if_neg h0]
      by_cases hany : users.any (fun u => u.email == email) = true
      · simp only [hany, if_true]
        exact hnodup
      · simp only [hany, Bool.false_eq_true, if_false]
        have hnotmem : email ∉ users.map (fun u => u.email) := by
          intro hmem
          rcases List.mem_map.mp hmem with ⟨u, hu, hue⟩
          apply hany
          rw [List.any_eq_true]
          exact ⟨u, hu, by simp [hue]⟩
        have hmapeq : (createUser email name password role freshId createdAt cu.id
            users).map (fun u => u.email) =
            users.map (fun u => u.email) ++ [email] := by
          simp [createUser]
        rw [hmapeq]
        exact (List.perm_append_singleton _ _).nodup_iff.mpr
          (List.nodup_cons.mpr ⟨hnotmem, hnodup⟩)

/-- C8 amended witness: an exact duplicate email is rejected, leaving the
Users collection unchanged. -/
theorem email_uniqueness_amended_witness :
    handleAddUser "admin@example.com" "X" "pw" Role.user (some adminUser)
        "99" "t1" [adminUser] = [adminUser] :=
  (email_uniqueness_amended "admin@example.com" "X" "pw" Role.user adminUser
    "99" "t1" [adminUser]).1 ⟨adminUser, by simp, rfl⟩

end LostFound
